import Mathlib

/-!
# Verification of the mwdg multi-watchdog engine

Shallow embedding of the mwdg watchdog-monitoring engine and of the
time source of `examples/simple.c`.

The engine itself (operations `mwdg_init`, `mwdg_add`, `mwdg_assign_id`,
`mwdg_feed`, `mwdg_check`, `mwdg_get_next_expired`) is distributed as a
static library; its source is not part of this tree, so the operations
below are modelled from the specification (sections 3, 4 and 6 of the
spec).  The demo time source `mwdg_get_time_milliseconds` is embedded
from `examples/simple.c`.

Modelling choices:
* The registry is a list of nodes, head-insertion order (register links
  at the head).  Each node carries a `handle : Nat` standing for the
  caller-owned storage address of the `struct mwdg_node`; two nodes are
  "the same storage" iff their handles agree.
* Time is passed explicitly: every operation that reads the clock takes
  the true (unbounded) time `τ : Nat` in milliseconds and uses the
  32-bit reading `τ % U32`, matching a `uint32_t` millisecond counter
  that wraps.
* The expired-node iterator cursor is modelled as the list suffix still
  to be scanned; the caller-initialized null/before-first cursor
  corresponds to the whole registry list.
-/

/-- Range of the 32-bit millisecond counter (`uint32_t`). -/
def U32 : Nat := 4294967296

/-- Modelled from the spec (§3 WatchdogNode): one watchdog record.
`handle` identifies the caller-owned storage; `id` is the opaque 32-bit
caller-assigned identifier (zero-initialized, as in the example's
`static struct mwdg_node wdg = {0}`); `timeout_ms > 0` once registered;
`last_fed_at` is a 32-bit millisecond timestamp; `expired` is sticky
until cleared by a feed. -/
structure MwdgNode where
  handle : Nat
  id : Nat
  timeout_ms : Nat
  last_fed_at : Nat
  expired : Bool
deriving DecidableEq, Repr

/-- Status code of an engine operation: success or precondition
violation (the C FFI returns `0` for success). -/
inductive MwdgStatus where
  | ok : MwdgStatus
  | err : MwdgStatus
deriving DecidableEq, Repr

/-- A node with this handle is currently linked in the registry. -/
def isLinked (reg : List MwdgNode) (h : Nat) : Bool :=
  reg.any (fun n => n.handle == h)

/-- Elapsed time via unsigned modular subtraction of two 32-bit
millisecond counter values, `now - last` computed modulo `2^32`
(spec §4.2: "unsigned modular subtraction"). -/
def elapsedMs (now last : Nat) : Nat :=
  (now % U32 + U32 - last % U32) % U32

/-- Modelled from the spec (§4.3 initialize): resets the registry to
empty. -/
def mwdg_init : List MwdgNode := []

/-- Modelled from the spec (§4.4 register): rejects `timeout_ms == 0`
and an already-linked node, mutating nothing; otherwise sets the
timeout, sets `last_fed_at = now_ms()`, clears `expired`, and links the
node at the head of the registry. -/
def mwdg_add (reg : List MwdgNode) (h timeout τ : Nat) :
    MwdgStatus × List MwdgNode :=
  if timeout = 0 ∨ isLinked reg h then (.err, reg)
  else (.ok, ⟨h, 0, timeout, τ % U32, false⟩ :: reg)

/-- Modelled from the spec (§4.5 assign_id): sets the node's `id`
field if the node is currently registered; a precondition violation
otherwise, mutating nothing. -/
def mwdg_assign_id (reg : List MwdgNode) (h i : Nat) :
    MwdgStatus × List MwdgNode :=
  if isLinked reg h then
    (.ok, reg.map fun n =>
      if n.handle = h then { n with id := i % U32 } else n)
  else (.err, reg)

/-- Modelled from the spec (§4.6 feed): for a registered node sets
`last_fed_at = now_ms()` and clears `expired`; operating on an
unregistered node is a reported precondition violation that mutates
nothing. -/
def mwdg_feed (reg : List MwdgNode) (h τ : Nat) :
    MwdgStatus × List MwdgNode :=
  if isLinked reg h then
    (.ok, reg.map fun n =>
      if n.handle = h then
        { n with last_fed_at := τ % U32, expired := false }
      else n)
  else (.err, reg)

/-- Scan step of check (spec §4.7): computes elapsed via modular
subtraction of `now_ms()` and `last_fed_at`; if
`elapsed >= timeout_ms`, sets `expired = true`. -/
def checkNode (τ : Nat) (n : MwdgNode) : MwdgNode :=
  if n.timeout_ms ≤ elapsedMs τ n.last_fed_at then
    { n with expired := true }
  else n

/-- Modelled from the spec (§4.7 check): scans every registered node,
flags the lapsed ones, and returns the aggregate status — `true` means
unhealthy (at least one node newly or previously expired), `false`
means healthy. -/
def mwdg_check (reg : List MwdgNode) (τ : Nat) :
    Bool × List MwdgNode :=
  ((reg.map (checkNode τ)).any (fun n => n.expired),
    reg.map (checkNode τ))

/-- Modelled from the spec (§4.8 get_next_expired): one call of the
expired-node iterator.  The cursor is the list suffix still to scan
(the caller-initialized before-first cursor is the whole registry).
Returns `some (id, cursor')` — continuation flag true, `out_id`
written, cursor advanced past the found node — or `none` when
exhausted. -/
def getNextExpired : List MwdgNode → Option (Nat × List MwdgNode)
  | [] => none
  | n :: rest =>
    if n.expired then some (n.id, rest) else getNextExpired rest

/-- Full drain loop: repeatedly calls `getNextExpired` from the given
cursor until it returns `none`, collecting the yielded identifiers;
also returns the cursor held when exhaustion was detected. -/
def drainFull : List MwdgNode → List Nat × List MwdgNode
  | [] => ([], [])
  | n :: rest =>
    if n.expired then
      ((n.id :: (drainFull rest).1), (drainFull rest).2)
    else if (getNextExpired rest).isNone then ([], n :: rest)
    else drainFull rest

/-- Embedded from `examples/simple.c`, `mwdg_get_time_milliseconds`:
given the CLOCK_MONOTONIC reading as `ns` nanoseconds
(`tv_sec = ns / 10^9`, `tv_nsec = ns % 10^9`), returns
`(uint32_t)(tv_sec * 1000U + tv_nsec / 1000000U)`. -/
def mwdg_get_time_milliseconds (ns : Nat) : Nat :=
  (ns / 1000000000 * 1000 + ns % 1000000000 / 1000000) % U32

/-- A registry-mutating engine operation together with its inputs
(spec §6, external interface). -/
inductive MwdgOp where
  | add (h t τ : Nat) : MwdgOp
  | assignId (h i : Nat) : MwdgOp
  | feed (h τ : Nat) : MwdgOp
  | check (τ : Nat) : MwdgOp
deriving DecidableEq, Repr

/-- Registry produced by one engine operation. -/
def applyOp (reg : List MwdgNode) : MwdgOp → List MwdgNode
  | .add h t τ => (mwdg_add reg h t τ).2
  | .assignId h i => (mwdg_assign_id reg h i).2
  | .feed h τ => (mwdg_feed reg h τ).2
  | .check τ => (mwdg_check reg τ).2

/-- The clock reading an operation stores, when it stores one:
register and feed write `now_ms()` into `last_fed_at`. -/
def opNow : MwdgOp → Option Nat
  | .add _ _ τ => some τ
  | .feed _ τ => some τ
  | _ => none

/-- One event of an interleaved run: some context feeds its node, or
the supervisor runs a check.  Each event carries its true time. -/
inductive MwdgEvent where
  | feed (h τ : Nat) : MwdgEvent
  | check (τ : Nat) : MwdgEvent
deriving DecidableEq, Repr

/-- Runs a list of feed/check events over the registry. -/
def runEvents (reg : List MwdgNode) : List MwdgEvent → List MwdgNode
  | [] => reg
  | MwdgEvent.feed h τ :: es => runEvents (mwdg_feed reg h τ).2 es
  | MwdgEvent.check τ :: es => runEvents (mwdg_check reg τ).2 es

/-- The claim's premise "node `h` is fed at least every `F`
milliseconds": tracking the true time `last` of the node's most recent
feed, every feed of `h` moves time forward and every check happens at
most `F` ms after the node's latest feed. -/
def fedWithin (h F : Nat) : Nat → List MwdgEvent → Prop
  | _, [] => True
  | last, MwdgEvent.feed h' τ :: es =>
      if h' = h then last ≤ τ ∧ fedWithin h F τ es
      else fedWithin h F last es
  | last, MwdgEvent.check τ :: es =>
      last ≤ τ ∧ τ - last ≤ F ∧ fedWithin h F last es

/-- Outcome of one supervisor tick: the check time, the aggregate
status it returned (`true` = unhealthy) and the identifiers obtained
by fully draining the expired-node iterator afterwards. -/
structure CheckRecord where
  time : Nat
  unhealthy : Bool
  drained : List Nat
deriving DecidableEq, Repr

/-- Runs events, recording every check's status and subsequent
iterator drain (the drain only reads the registry). -/
def runScenario (reg : List MwdgNode) :
    List MwdgEvent → List CheckRecord
  | [] => []
  | MwdgEvent.feed h τ :: es => runScenario (mwdg_feed reg h τ).2 es
  | MwdgEvent.check τ :: es =>
      ⟨τ, (mwdg_check reg τ).1, (drainFull (mwdg_check reg τ).2).1⟩ ::
        runScenario (mwdg_check reg τ).2 es

/-- Registry of the reference example after both workers register:
worker-1's node (handle 1, timeout 100 ms, id `0xCAFE`) and worker-2's
node (handle 2, timeout 200 ms, id `0xBEEF`), both registered at
time 0. -/
def scenarioReg : List MwdgNode :=
  (mwdg_assign_id
    (mwdg_assign_id
      (mwdg_add (mwdg_add mwdg_init 1 100 0).2 2 200 0).2
      1 51966).2
    2 48879).2

/-- Event schedule of the reference example: worker-1 feeds every
40 ms until t = 300 ms then never again, worker-2 feeds every 80 ms
throughout, the supervisor checks every 50 ms over a 1500 ms run. -/
def scenarioEvents : List MwdgEvent :=
  (List.range 1500).foldr
    (fun t acc =>
      (if t % 40 = 0 ∧ t < 300 then [MwdgEvent.feed 1 t] else []) ++
      (if t % 80 = 0 then [MwdgEvent.feed 2 t] else []) ++
      (if t % 50 = 0 then [MwdgEvent.check t] else []) ++ acc)
    []

/-! ## Basic arithmetic lemmas about the modular elapsed time -/

/-- Unsigned modular subtraction of wrapped counter readings recovers
the true elapsed time modulo `2^32`. -/
theorem elapsedMs_eq_mod (a b : Nat) (hba : b ≤ a) :
    elapsedMs a b = (a - b) % U32 := by
  unfold elapsedMs U32
  omega

/-- When the true elapsed time is below the counter range, modular
subtraction recovers it exactly. -/
theorem elapsedMs_eq_of_lt (a b : Nat) (hba : b ≤ a)
    (hlt : a - b < U32) : elapsedMs a b = a - b := by
  rw [elapsedMs_eq_mod a b hba]
  exact Nat.mod_eq_of_lt hlt

/-- The stored `last_fed_at` is a 32-bit reading; `elapsedMs` is
insensitive to reducing its second argument. -/
theorem elapsedMs_mod_right (a b : Nat) :
    elapsedMs a (b % U32) = elapsedMs a b := by
  unfold elapsedMs U32
  omega

/-- `elapsedMs` is insensitive to reducing its first argument. -/
theorem elapsedMs_mod_left (a b : Nat) :
    elapsedMs (a % U32) b = elapsedMs a b := by
  unfold elapsedMs U32
  omega

/-! ## Iterator lemmas -/

/-- The iterator is exhausted exactly when no node in the cursor
suffix is marked expired. -/
theorem getNextExpired_eq_none_iff (l : List MwdgNode) :
    getNextExpired l = none ↔ ∀ n ∈ l, n.expired = false := by
  induction l with
  | nil => simp [getNextExpired]
  | cons n rest ih =>
    cases hn : n.expired with
    | true => simp [getNextExpired, hn]
    | false => simp [getNextExpired, hn, ih]

/-- Draining yields the identifiers of exactly the expired nodes, in
registry order. -/
theorem drainFull_fst (l : List MwdgNode) :
    (drainFull l).1 =
      (l.filter (fun n => n.expired)).map (fun n => n.id) := by
  induction l with
  | nil => simp [drainFull]
  | cons n rest ih =>
    cases hn : n.expired with
    | true => simp [drainFull, hn, ih]
    | false =>
      by_cases hrest : (getNextExpired rest).isNone
      · have hnone : getNextExpired rest = none :=
          Option.isNone_iff_eq_none.mp hrest
        have hall := (getNextExpired_eq_none_iff rest).mp hnone
        have hfil : rest.filter (fun n => n.expired) = [] := by
          rw [List.filter_eq_nil_iff]
          intro m hm
          simp [hall m hm]
        simp [drainFull, hn, hrest, hfil]
      · simp [drainFull, hn, hrest, ih]

/-- After a full drain, the iterator reports exhaustion: a further
call with the final cursor returns the no-more flag. -/
theorem drainFull_snd (l : List MwdgNode) :
    getNextExpired (drainFull l).2 = none := by
  induction l with
  | nil => simp [drainFull, getNextExpired]
  | cons n rest ih =>
    cases hn : n.expired with
    | true => simpa [drainFull, hn] using ih
    | false =>
      by_cases hrest : (getNextExpired rest).isNone
      · have hnone : getNextExpired rest = none :=
          Option.isNone_iff_eq_none.mp hrest
        simp [drainFull, hn, hrest, getNextExpired, hnone]
      · simpa [drainFull, hn, hrest] using ih

/-! ## Field-preservation lemmas for the scan step -/

/-- The check scan never changes a node's handle. -/
theorem checkNode_handle (τ : Nat) (n : MwdgNode) :
    (checkNode τ n).handle = n.handle := by
  unfold checkNode
  split <;> rfl

/-- The check scan never changes a node's timeout. -/
theorem checkNode_timeout (τ : Nat) (n : MwdgNode) :
    (checkNode τ n).timeout_ms = n.timeout_ms := by
  unfold checkNode
  split <;> rfl

/-- The check scan never changes a node's feed timestamp. -/
theorem checkNode_last_fed (τ : Nat) (n : MwdgNode) :
    (checkNode τ n).last_fed_at = n.last_fed_at := by
  unfold checkNode
  split <;> rfl

/-- The check scan never changes a node's id. -/
theorem checkNode_id (τ : Nat) (n : MwdgNode) :
    (checkNode τ n).id = n.id := by
  unfold checkNode
  split <;> rfl

/-- A node whose elapsed time is strictly below its timeout is left
untouched by the check scan. -/
theorem checkNode_of_lt (τ : Nat) (n : MwdgNode)
    (hlt : elapsedMs τ n.last_fed_at < n.timeout_ms) :
    checkNode τ n = n := by
  unfold checkNode
  rw [if_neg (by omega)]

/-! ## Claim theorems -/

/-- C2: `check()` returns an aggregate boolean health status that is
unhealthy (`true`) exactly when at least one node of the post-scan
registry is expired, and healthy (`false`) exactly when no node is. -/
theorem mwdg_check_status_iff (reg : List MwdgNode) (τ : Nat) :
    ((mwdg_check reg τ).1 = true ↔
      ∃ n ∈ (mwdg_check reg τ).2, n.expired = true) ∧
    ((mwdg_check reg τ).1 = false ↔
      ∀ n ∈ (mwdg_check reg τ).2, n.expired = false) := by
  constructor
  · simp [mwdg_check, List.any_eq_true]
  · simp [mwdg_check, List.any_eq_false]

/-- C5: after a `check()`, draining the expired-node iterator from the
before-first cursor yields exactly the identifiers of the nodes marked
expired, one each, in registry order (deterministic for a fixed
registry state), and the exhausted cursor answers no-more. -/
theorem mwdg_iterator_complete (reg : List MwdgNode) (τ : Nat) :
    (drainFull (mwdg_check reg τ).2).1 =
      ((mwdg_check reg τ).2.filter (fun n => n.expired)).map
        (fun n => n.id) ∧
    (drainFull (mwdg_check reg τ).2).1.length =
      ((mwdg_check reg τ).2.filter (fun n => n.expired)).length ∧
    getNextExpired (drainFull (mwdg_check reg τ).2).2 = none := by
  refine ⟨drainFull_fst _, ?_, drainFull_snd _⟩
  rw [drainFull_fst]
  simp

/-- C6: elapsed time is computed by unsigned modular subtraction, so
for counter readings that straddle the wrap boundary the computed
elapsed duration equals the true elapsed duration whenever the true
elapsed time is below the counter's full range. -/
theorem mwdg_wraparound_correct (t0 t : Nat) (h1 : t0 ≤ t)
    (h2 : t - t0 < U32) :
    elapsedMs t t0 = t - t0 ∧
    elapsedMs (t % U32) (t0 % U32) = t - t0 := by
  have h := elapsedMs_eq_of_lt t t0 h1 h2
  refine ⟨h, ?_⟩
  rw [elapsedMs_mod_left, elapsedMs_mod_right]
  exact h

/-- Witness for C6 at readings straddling the 2^32 boundary:
`t0 = 2^32 - 5`, `t = 2^32 + 10`, true elapsed 15 ms. -/
theorem mwdg_wraparound_correct_witness :
    (4294967291:Nat) ≤ 4294967306 ∧ 4294967306 - 4294967291 < U32 ∧
    (elapsedMs 4294967306 4294967291 = 4294967306 - 4294967291 ∧
     elapsedMs (4294967306 % U32) (4294967291 % U32) =
       4294967306 - 4294967291) :=
  ⟨by decide, by decide,
    mwdg_wraparound_correct 4294967291 4294967306 (by decide)
      (by decide)⟩

/-- C8: `register` succeeds under its preconditions (nonzero timeout,
node not already linked), linking the fresh node at the head; it
reports a precondition violation when `timeout_ms = 0` or the node is
already linked, and on the invalid-timeout error the registry is not
mutated. -/
theorem mwdg_add_contract (reg : List MwdgNode) (h t τ : Nat) :
    (t ≠ 0 → isLinked reg h = false →
      mwdg_add reg h t τ = (.ok, ⟨h, 0, t, τ % U32, false⟩ :: reg)) ∧
    ((t = 0 ∨ isLinked reg h = true) →
      (mwdg_add reg h t τ).1 = .err) ∧
    (t = 0 → (mwdg_add reg h t τ).2 = reg) := by
  refine ⟨?_, ?_, ?_⟩
  · intro ht hl
    simp [mwdg_add, ht, hl]
  · intro hc
    rcases hc with ht | hl
    · simp [mwdg_add, ht]
    · simp [mwdg_add, hl]
  · intro ht
    simp [mwdg_add, ht]

/-- Witness for C8: a successful registration, a rejected
re-registration, and a rejected zero timeout that leaves the registry
unchanged. -/
theorem mwdg_add_contract_witness :
    mwdg_add [] 1 5 0 = (.ok, [⟨1, 0, 5, 0 % U32, false⟩]) ∧
    (mwdg_add [⟨1, 0, 5, 0, false⟩] 1 7 0).1 = .err ∧
    (mwdg_add [] 2 0 3).2 = [] :=
  ⟨(mwdg_add_contract [] 1 5 0).1 (by decide) (by decide),
   (mwdg_add_contract [⟨1, 0, 5, 0, false⟩] 1 7 0).2.1
     (Or.inr (by decide)),
   (mwdg_add_contract [] 2 0 3).2.2 rfl⟩

/-- C1 (amended): if the node's last feed happened at true time `τ0`
and a check runs at true time `τ ≥ τ0 + timeout_ms` with the true
elapsed time `τ - τ0` below the counter range `2^32`, the scan
computes the elapsed time by modular subtraction, finds it at or above
the timeout, and marks the node expired (so the check also reports
unhealthy). -/
theorem mwdg_check_expiry_detection (reg : List MwdgNode)
    (τ0 τ : Nat) (n : MwdgNode) (hmem : n ∈ reg)
    (hfed : n.last_fed_at = τ0 % U32)
    (hT : τ0 + n.timeout_ms ≤ τ) (hrange : τ - τ0 < U32) :
    { n with expired := true } ∈ (mwdg_check reg τ).2 ∧
    (mwdg_check reg τ).1 = true := by
  have hτ0 : τ0 ≤ τ := le_trans (Nat.le_add_right _ _) hT
  have he : elapsedMs τ n.last_fed_at = τ - τ0 := by
    rw [hfed, elapsedMs_mod_right, elapsedMs_eq_of_lt τ τ0 hτ0 hrange]
  have hcn : checkNode τ n = { n with expired := true } := by
    unfold checkNode
    rw [he, if_pos (by omega)]
  have hm : { n with expired := true } ∈ (mwdg_check reg τ).2 := by
    rw [mwdg_check]
    exact hcn ▸ List.mem_map_of_mem (checkNode τ) hmem
  refine ⟨hm, ?_⟩
  rw [mwdg_check] at hm ⊢
  exact List.any_eq_true.mpr ⟨_, hm, rfl⟩

/-- Witness for C1 (amended): node fed last at `t0 = 0`, timeout 100,
checked at `t = 250`. -/
theorem mwdg_check_expiry_detection_witness :
    (⟨1, 5, 100, 0, false⟩ : MwdgNode) ∈
        [(⟨1, 5, 100, 0, false⟩ : MwdgNode)] ∧
    (⟨1, 5, 100, 0, false⟩ : MwdgNode).last_fed_at = 0 % U32 ∧
    0 + (⟨1, 5, 100, 0, false⟩ : MwdgNode).timeout_ms ≤ 250 ∧
    250 - 0 < U32 ∧
    (({ (⟨1, 5, 100, 0, false⟩ : MwdgNode) with expired := true } ∈
        (mwdg_check [⟨1, 5, 100, 0, false⟩] 250).2) ∧
      (mwdg_check [⟨1, 5, 100, 0, false⟩] 250).1 = true) :=
  ⟨by decide, by decide, by decide, by decide,
    mwdg_check_expiry_detection [⟨1, 5, 100, 0, false⟩] 0 250
      ⟨1, 5, 100, 0, false⟩ (by decide) (by decide) (by decide)
      (by decide)⟩

/-- Counterexample to C1 as stated: feeding stops at `t0 = 0` for a
node with timeout 100, yet the check at time `2^32 ≥ t0 + 100`
computes a modular elapsed time of 0, below the timeout, so the
expired flag stays false and the check reports healthy. -/
theorem mwdg_check_expiry_detection_cex :
    (0:Nat) + 100 ≤ 4294967296 ∧
    mwdg_check [⟨1, 5, 100, 0, false⟩] 4294967296 =
      (false, [⟨1, 5, 100, 0, false⟩]) := by
  constructor
  · decide
  · decide

/-- C4: for a registered node, `feed` returns success, sets
`last_fed_at` to the current 32-bit clock reading and clears the
expired flag (recovery); the very next check, run before the node's
timeout has elapsed again, leaves that node healthy. -/
theorem mwdg_feed_recovery (reg : List MwdgNode) (h τf τ : Nat)
    (hlink : isLinked reg h = true) (hle : τf ≤ τ) :
    (mwdg_feed reg h τf).1 = .ok ∧
    (∀ n ∈ (mwdg_feed reg h τf).2, n.handle = h →
      n.last_fed_at = τf % U32 ∧ n.expired = false) ∧
    (∀ n ∈ (mwdg_check (mwdg_feed reg h τf).2 τ).2, n.handle = h →
      τ - τf < n.timeout_ms → n.expired = false) := by
  refine ⟨by simp [mwdg_feed, hlink], ?_, ?_⟩
  · intro n hn hh
    rw [mwdg_feed, if_pos hlink] at hn
    obtain ⟨m, hm, rfl⟩ := List.mem_map.mp hn
    by_cases hmh : m.handle = h
    · simp [hmh]
    · simp only [if_neg hmh] at hh ⊢
      exact absurd hh hmh
  · intro n hn hh hto
    rw [mwdg_check] at hn
    obtain ⟨m, hm, rfl⟩ := List.mem_map.mp hn
    rw [mwdg_feed, if_pos hlink] at hm
    obtain ⟨p, hp, rfl⟩ := List.mem_map.mp hm
    by_cases hph : p.handle = h
    · rw [checkNode_timeout] at hto
      simp only [if_pos hph] at hto ⊢
      have hlt : elapsedMs τ (τf % U32) < p.timeout_ms := by
        rw [elapsedMs_mod_right, elapsedMs_eq_mod τ τf hle]
        have := Nat.mod_le (τ - τf) U32
        omega
      rw [checkNode_of_lt τ _ hlt]
    · exfalso
      rw [checkNode_handle] at hh
      simp only [if_neg hph] at hh
      exact hph hh

/-- Witness for C4: an expired node (handle 1, timeout 100) is fed at
time 500 and checked at time 550. -/
theorem mwdg_feed_recovery_witness :
    isLinked [⟨1, 7, 100, 0, true⟩] 1 = true ∧ (500:Nat) ≤ 550 ∧
    ((mwdg_feed [⟨1, 7, 100, 0, true⟩] 1 500).1 = .ok ∧
     (∀ n ∈ (mwdg_feed [⟨1, 7, 100, 0, true⟩] 1 500).2,
        n.handle = 1 → n.last_fed_at = 500 % U32 ∧
          n.expired = false) ∧
     (∀ n ∈ (mwdg_check (mwdg_feed [⟨1, 7, 100, 0, true⟩] 1 500).2
          550).2, n.handle = 1 → 550 - 500 < n.timeout_ms →
            n.expired = false)) :=
  ⟨by decide, by decide,
    mwdg_feed_recovery [⟨1, 7, 100, 0, true⟩] 1 500 550 (by decide)
      (by decide)⟩

/-- A member's handle witnesses linkage. -/
theorem isLinked_of_mem (reg : List MwdgNode) (x : MwdgNode)
    (k : Nat) (hx : x ∈ reg) (hh : x.handle = k) :
    isLinked reg k = true := by
  simp only [isLinked, List.any_eq_true]
  exact ⟨x, hx, by simp [hh]⟩

/-- C3: liveness preservation.  For any timeout `T` and feed interval
`F < T`, a node that is fed at least every `F` milliseconds (premise
`fedWithin`) is never marked expired by any check over an arbitrarily
long interleaved run of feed and check events. -/
theorem mwdg_liveness_preservation (reg : List MwdgNode)
    (k F T τ0 : Nat) (es : List MwdgEvent) (hFT : F < T)
    (hfed : fedWithin k F τ0 es)
    (hinit : ∀ n ∈ reg, n.handle = k →
      n.timeout_ms = T ∧ n.last_fed_at = τ0 % U32 ∧
        n.expired = false) :
    ∀ n ∈ runEvents reg es, n.handle = k → n.expired = false := by
  induction es generalizing reg τ0 with
  | nil =>
    intro n hn hh
    exact (hinit n hn hh).2.2
  | cons e es ih =>
    cases e with
    | feed h' τ =>
      simp only [runEvents]
      by_cases hh' : h' = k
      · rw [hh']
        have hfed' : τ0 ≤ τ ∧ fedWithin k F τ es := by
          simpa [fedWithin, hh'] using hfed
        refine ih (mwdg_feed reg k τ).2 τ hfed'.2 ?_
        by_cases hl : isLinked reg k = true
        · rw [mwdg_feed, if_pos hl]
          intro n hn hh
          obtain ⟨m, hm, rfl⟩ := List.mem_map.mp hn
          by_cases hmh : m.handle = k
          · rw [if_pos hmh]
            exact ⟨(hinit m hm hmh).1, rfl, rfl⟩
          · rw [if_neg hmh] at hh
            have hmk : m.handle = k := hh
            exact absurd hmk hmh
        · rw [mwdg_feed, if_neg hl]
          intro n hn hh
          exact absurd (isLinked_of_mem reg n k hn hh) hl
      · have hfed' : fedWithin k F τ0 es := by
          simpa [fedWithin, hh'] using hfed
        refine ih (mwdg_feed reg h' τ).2 τ0 hfed' ?_
        by_cases hl : isLinked reg h' = true
        · rw [mwdg_feed, if_pos hl]
          intro n hn hh
          obtain ⟨m, hm, rfl⟩ := List.mem_map.mp hn
          by_cases hmh : m.handle = h'
          · rw [if_pos hmh] at hh
            have hmk : m.handle = k := hh
            exact absurd (hmh ▸ hmk) hh'
          · rw [if_neg hmh] at hh ⊢
            exact hinit m hm hh
        · rw [mwdg_feed, if_neg hl]
          exact hinit
    | check τ =>
      simp only [runEvents]
      have hfed' : τ0 ≤ τ ∧ τ - τ0 ≤ F ∧ fedWithin k F τ0 es := by
        simpa [fedWithin] using hfed
      refine ih (mwdg_check reg τ).2 τ0 hfed'.2.2 ?_
      intro n hn hh
      rw [mwdg_check] at hn
      obtain ⟨m, hm, rfl⟩ := List.mem_map.mp hn
      have hmh : m.handle = k := by
        rw [← checkNode_handle τ m]
        exact hh
      obtain ⟨hT', hlast, hexp⟩ := hinit m hm hmh
      have hlt : elapsedMs τ m.last_fed_at < m.timeout_ms := by
        rw [hlast, elapsedMs_mod_right, elapsedMs_eq_mod τ τ0 hfed'.1]
        have h1 := Nat.mod_le (τ - τ0) U32
        have h2 := hfed'.2.1
        omega
      rw [checkNode_of_lt τ m hlt]
      exact ⟨hT', hlast, hexp⟩

/-- Witness for C3: a node with timeout 100 fed every 40 ms across two
feed/check rounds never expires. -/
theorem mwdg_liveness_preservation_witness :
    (40:Nat) < 100 ∧
    fedWithin 1 40 0
      [MwdgEvent.feed 1 40, MwdgEvent.check 70, MwdgEvent.feed 1 80,
       MwdgEvent.check 110] ∧
    (∀ n ∈ [(⟨1, 5, 100, 0, false⟩ : MwdgNode)], n.handle = 1 →
      n.timeout_ms = 100 ∧ n.last_fed_at = 0 % U32 ∧
        n.expired = false) ∧
    (∀ n ∈ runEvents [(⟨1, 5, 100, 0, false⟩ : MwdgNode)]
        [MwdgEvent.feed 1 40, MwdgEvent.check 70, MwdgEvent.feed 1 80,
         MwdgEvent.check 110], n.handle = 1 → n.expired = false) :=
  ⟨by decide, by norm_num [fedWithin], by decide,
    mwdg_liveness_preservation [⟨1, 5, 100, 0, false⟩] 1 40 100 0
      [MwdgEvent.feed 1 40, MwdgEvent.check 70, MwdgEvent.feed 1 80,
       MwdgEvent.check 110] (by decide) (by norm_num [fedWithin])
      (by decide)⟩

set_option maxRecDepth 10000 in
/-- C7: the reference scenario.  Node A (id `0xCAFE` = 51966, timeout
100 ms) is fed every 40 ms until t = 300 ms then never again; node B
(id `0xBEEF` = 48879, timeout 200 ms) is fed every 80 ms throughout a
1500 ms run with checks every 50 ms.  Every check before t = 400 ms
reports healthy with nothing to drain; every check from t = 400 ms on
reports unhealthy and its drain yields exactly A's id; B's id never
appears in any drain. -/
theorem mwdg_reference_scenario :
    ∀ r ∈ runScenario scenarioReg scenarioEvents,
      (r.time < 400 → r.unhealthy = false ∧ r.drained = []) ∧
      (400 ≤ r.time → r.unhealthy = true ∧ r.drained = [51966]) ∧
      48879 ∉ r.drained := by
  decide

/-- A field-wise node update that keeps handles keeps the registry's
handle list. -/
theorem map_handle_eq (reg : List MwdgNode) (f : MwdgNode → MwdgNode)
    (hf : ∀ n, (f n).handle = n.handle) :
    (reg.map f).map (fun n => n.handle) =
      reg.map (fun n => n.handle) := by
  induction reg with
  | nil => rfl
  | cons n rest ih => simp [hf, ih]

/-- A handle-preserving update keeps the handle list duplicate-free. -/
theorem nodup_handles_map (reg : List MwdgNode)
    (f : MwdgNode → MwdgNode) (hf : ∀ n, (f n).handle = n.handle)
    (hnd : (reg.map (fun n => n.handle)).Nodup) :
    ((reg.map f).map (fun n => n.handle)).Nodup := by
  rw [map_handle_eq reg f hf]
  exact hnd

/-- An unlinked handle does not occur in the registry's handle list. -/
theorem not_linked_not_mem (reg : List MwdgNode) (h : Nat)
    (hl : ¬ isLinked reg h = true) :
    h ∉ reg.map (fun n => n.handle) := by
  intro hmem
  obtain ⟨n, hn, hh⟩ := List.mem_map.mp hmem
  exact hl (isLinked_of_mem reg n h hn hh)

/-- C9: every engine operation preserves the registry invariant.
Starting from a registry in which each node is reachable exactly once
(duplicate-free handles), the operation leaves the handle list
duplicate-free; every previously registered node is still reachable
with the same handle, with its `timeout_ms` unchanged, and with
`last_fed_at` either unchanged or set to the operation's current
clock reading `τ % 2^32` (so it only advances, up to clock
wraparound). -/
theorem mwdg_registry_invariants (reg : List MwdgNode) (op : MwdgOp)
    (hnd : (reg.map (fun n => n.handle)).Nodup) :
    ((applyOp reg op).map (fun n => n.handle)).Nodup ∧
    (∀ n ∈ reg, ∃ n' ∈ applyOp reg op,
      n'.handle = n.handle ∧ n'.timeout_ms = n.timeout_ms ∧
      (n'.last_fed_at = n.last_fed_at ∨
        ∃ τ, opNow op = some τ ∧ n'.last_fed_at = τ % U32)) := by
  cases op with
  | add h t τ =>
    constructor
    · simp only [applyOp, mwdg_add]
      split
      · exact hnd
      · rename_i hc
        exact List.nodup_cons.mpr
          ⟨not_linked_not_mem reg h (fun hl => hc (Or.inr hl)), hnd⟩
    · intro n hn
      simp only [applyOp, mwdg_add]
      split
      · exact ⟨n, hn, rfl, rfl, Or.inl rfl⟩
      · exact ⟨n, List.mem_cons_of_mem _ hn, rfl, rfl, Or.inl rfl⟩
  | assignId h i =>
    have hf : ∀ n : MwdgNode,
        ((if n.handle = h then { n with id := i % U32 } else n) :
          MwdgNode).handle = n.handle := by
      intro n
      split <;> rfl
    constructor
    · simp only [applyOp, mwdg_assign_id]
      split
      · exact nodup_handles_map reg _ hf hnd
      · exact hnd
    · intro n hn
      simp only [applyOp, mwdg_assign_id]
      split
      · refine ⟨_, List.mem_map_of_mem _ hn, hf n, ?_, Or.inl ?_⟩ <;>
          split <;> rfl
      · exact ⟨n, hn, rfl, rfl, Or.inl rfl⟩
  | feed h τ =>
    have hf : ∀ n : MwdgNode,
        ((if n.handle = h then
            { n with last_fed_at := τ % U32, expired := false }
          else n) : MwdgNode).handle = n.handle := by
      intro n
      split <;> rfl
    constructor
    · simp only [applyOp, mwdg_feed]
      split
      · exact nodup_handles_map reg _ hf hnd
      · exact hnd
    · intro n hn
      simp only [applyOp, mwdg_feed]
      split
      · refine ⟨_, List.mem_map_of_mem _ hn, hf n, ?_, ?_⟩
        · split <;> rfl
        · by_cases hnh : n.handle = h
          · exact Or.inr ⟨τ, rfl, by rw [if_pos hnh]⟩
          · exact Or.inl (by rw [if_neg hnh])
      · exact ⟨n, hn, rfl, rfl, Or.inl rfl⟩
  | check τ =>
    constructor
    · exact nodup_handles_map reg (checkNode τ)
        (fun n => checkNode_handle τ n) hnd
    · intro n hn
      exact ⟨checkNode τ n, List.mem_map_of_mem _ hn,
        checkNode_handle τ n, checkNode_timeout τ n,
        Or.inl (checkNode_last_fed τ n)⟩

/-- Witness for C9: feeding node 2 of a two-node registry. -/
theorem mwdg_registry_invariants_witness :
    (([⟨1, 10, 100, 0, false⟩, ⟨2, 20, 200, 5, true⟩] :
        List MwdgNode).map (fun n => n.handle)).Nodup ∧
    (((applyOp [⟨1, 10, 100, 0, false⟩, ⟨2, 20, 200, 5, true⟩]
        (MwdgOp.feed 2 400)).map (fun n => n.handle)).Nodup ∧
     (∀ n ∈ ([⟨1, 10, 100, 0, false⟩, ⟨2, 20, 200, 5, true⟩] :
          List MwdgNode),
        ∃ n' ∈ applyOp [⟨1, 10, 100, 0, false⟩, ⟨2, 20, 200, 5, true⟩]
            (MwdgOp.feed 2 400),
          n'.handle = n.handle ∧ n'.timeout_ms = n.timeout_ms ∧
          (n'.last_fed_at = n.last_fed_at ∨
            ∃ τ, opNow (MwdgOp.feed 2 400) = some τ ∧
              n'.last_fed_at = τ % U32))) :=
  ⟨by decide,
    mwdg_registry_invariants
      [⟨1, 10, 100, 0, false⟩, ⟨2, 20, 200, 5, true⟩]
      (MwdgOp.feed 2 400) (by decide)⟩

/-- C10: the demo time source converts the CLOCK_MONOTONIC reading to
whole milliseconds reduced modulo `2^32`; the unsigned modular
difference of two readings equals the elapsed whole milliseconds
whenever that elapsed time is below `2^32` ms, and the returned
counter is non-decreasing except across a `2^32` wrap. -/
theorem mwdg_time_source_correct (ns1 ns2 : Nat) (hle : ns1 ≤ ns2)
    (hrange : ns2 / 1000000 - ns1 / 1000000 < U32) :
    mwdg_get_time_milliseconds ns1 = ns1 / 1000000 % U32 ∧
    mwdg_get_time_milliseconds ns2 = ns2 / 1000000 % U32 ∧
    elapsedMs (mwdg_get_time_milliseconds ns2)
        (mwdg_get_time_milliseconds ns1) =
      ns2 / 1000000 - ns1 / 1000000 ∧
    (ns1 / 1000000 / U32 = ns2 / 1000000 / U32 →
      mwdg_get_time_milliseconds ns1 ≤ mwdg_get_time_milliseconds ns2) := by
  have key : ∀ ns : Nat,
      mwdg_get_time_milliseconds ns = ns / 1000000 % U32 := by
    intro ns
    unfold mwdg_get_time_milliseconds U32
    omega
  have hdiv : ns1 / 1000000 ≤ ns2 / 1000000 :=
    Nat.div_le_div_right hle
  refine ⟨key ns1, key ns2, ?_, ?_⟩
  · rw [key ns1, key ns2, elapsedMs_mod_left, elapsedMs_mod_right]
    exact elapsedMs_eq_of_lt _ _ hdiv hrange
  · intro heq
    rw [key ns1, key ns2]
    unfold U32 at heq ⊢
    omega

/-- Witness for C10 at two readings straddling the 2^32 ms boundary:
`ns1` at 4294967295 whole ms, `ns2` at 4294967297 whole ms, elapsed
2 ms across the wrap. -/
theorem mwdg_time_source_correct_witness :
    (4294967295000000:Nat) ≤ 4294967297000123 ∧
    (4294967297000123:Nat) / 1000000 -
      (4294967295000000:Nat) / 1000000 < U32 ∧
    (mwdg_get_time_milliseconds 4294967295000000 =
        4294967295000000 / 1000000 % U32 ∧
     mwdg_get_time_milliseconds 4294967297000123 =
        4294967297000123 / 1000000 % U32 ∧
     elapsedMs (mwdg_get_time_milliseconds 4294967297000123)
         (mwdg_get_time_milliseconds 4294967295000000) =
       4294967297000123 / 1000000 - 4294967295000000 / 1000000 ∧
     (4294967295000000 / 1000000 / U32 =
          4294967297000123 / 1000000 / U32 →
        mwdg_get_time_milliseconds 4294967295000000 ≤
          mwdg_get_time_milliseconds 4294967297000123)) :=
  ⟨by decide, by decide,
    mwdg_time_source_correct 4294967295000000 4294967297000123
      (by decide) (by decide)⟩

set_option maxRecDepth 10000 in
/-- Witness for C7: the supervisor's check record at t = 400 ms is in
the run, reports unhealthy, and drains exactly A's id. -/
theorem mwdg_reference_scenario_witness :
    (⟨400, true, [51966]⟩ : CheckRecord) ∈
        runScenario scenarioReg scenarioEvents ∧
    (((⟨400, true, [51966]⟩ : CheckRecord).time < 400 →
        (⟨400, true, [51966]⟩ : CheckRecord).unhealthy = false ∧
        (⟨400, true, [51966]⟩ : CheckRecord).drained = []) ∧
     (400 ≤ (⟨400, true, [51966]⟩ : CheckRecord).time →
        (⟨400, true, [51966]⟩ : CheckRecord).unhealthy = true ∧
        (⟨400, true, [51966]⟩ : CheckRecord).drained = [51966]) ∧
     48879 ∉ (⟨400, true, [51966]⟩ : CheckRecord).drained) :=
  ⟨by decide,
    mwdg_reference_scenario ⟨400, true, [51966]⟩ (by decide)⟩
